import Mathlib

/-!
Shallow embedding of the MP3 frame scanner from
`src/api/src/services/mp3-parser.ts` together with its constant tables from
`src/api/src/constants/Mp3Parsing.ts` and `src/api/src/constants/Mp3.ts`
(`BITRATES_V1_L3`, `SAMPLE_RATES_V1`).

A Node `Buffer` is modelled as a `List Nat` of byte values; positions and
lengths are `Nat`.  All JavaScript arithmetic reachable by the scanner is
non-negative and below `2^31`, so `Nat` arithmetic (with the truncated
subtraction identities noted at each use site) is an exact model.  The
exceptions a `Buffer` access can raise (`RangeError`, `TypeError`) are
modelled with `Except JsError`.
-/

/-- Byte buffer: an immutable, finite, randomly indexable sequence of byte
values addressed by a zero-based offset (Node `Buffer`). -/
abbrev ByteBuf := List Nat

/-- Errors a buffer operation can raise in the JavaScript source.
`other` stands for every error that is neither a `RangeError` nor a
`TypeError` (the catch block in `getMp3FrameCount` re-throws those). -/
inductive JsError where
  | rangeError
  | typeError
  | other
deriving Repr, DecidableEq

/-- Decoded MP3 frame header (`Mp3Header` interface in the source). -/
structure Mp3Header where
  frameSync : Nat
  mpegVersion : Nat
  layer : Nat
  bitrateIndex : Nat
  sampleRateIndex : Nat
  padding : Nat
deriving Repr, DecidableEq

/-! Constants from `src/api/src/constants/Mp3Parsing.ts`. -/

def ID3V2_IDENTIFIER_I : Nat := 0x49
def ID3V2_IDENTIFIER_D : Nat := 0x44
def ID3V2_IDENTIFIER_THREE : Nat := 0x33
def ID3V2_HEADER_SIZE : Nat := 10
def ID3V1_IDENTIFIER_T : Nat := 0x54
def ID3V1_IDENTIFIER_A : Nat := 0x41
def ID3V1_IDENTIFIER_G : Nat := 0x47
def ID3V1_TAG_SIZE : Nat := 128
def MP3_FRAME_HEADER_SIZE : Nat := 4
def FRAME_SYNC_VALUE : Nat := 0x7ff
def FRAME_SYNC_MASK : Nat := 0x7ff
def MPEG_VERSION_V1 : Nat := 3
def LAYER_LAYER_III : Nat := 1
def FRAME_LENGTH_MULTIPLIER : Nat := 144
def KBPS_TO_BPS : Nat := 1000

/-! Constant tables from `src/api/src/constants/Mp3.ts`. -/

/-- Bitrates in kbps for MPEG Version 1 Layer III, indexed by the 4-bit
bitrate index. Index 0 is free format, index 15 is invalid (`-1`). -/
def BITRATES_V1_L3 : List Int :=
  [0, 32, 40, 48, 56, 64, 80, 96, 112, 128, 160, 192, 224, 256, 320, -1]

/-- Sample rates in Hz for MPEG Version 1, indexed by the 2-bit sample-rate
index. Index 3 is reserved (`-1`). -/
def SAMPLE_RATES_V1 : List Int := [44100, 48000, 32000, -1]

/-- Embedding of `skipId3v2Tag` (mp3-parser.ts lines 94-122).  The size is
read from bytes 6-9 with plain shifts and bitwise or, exactly as the source:
the source applies NO `& 0x7F` mask to the bytes.  All operands are below
`2^29`, so the JavaScript 32-bit `|` and `<<` coincide with `Nat.lor` and
`Nat.shiftLeft`. -/
def skipId3v2Tag (file : ByteBuf) (position : Nat) : Nat :=
  if position + ID3V2_HEADER_SIZE > file.length then
    position
  else if file.getD position 0 = ID3V2_IDENTIFIER_I ∧
      file.getD (position + 1) 0 = ID3V2_IDENTIFIER_D ∧
      file.getD (position + 2) 0 = ID3V2_IDENTIFIER_THREE then
    let size :=
      (file.getD (position + 6) 0 <<< 21) |||
      (file.getD (position + 7) 0 <<< 14) |||
      (file.getD (position + 8) 0 <<< 7) |||
      file.getD (position + 9) 0
    position + ID3V2_HEADER_SIZE + size
  else
    position

/-- Embedding of `getEndPosition` (mp3-parser.ts lines 130-144). -/
def getEndPosition (file : ByteBuf) : Nat :=
  if ID3V1_TAG_SIZE ≤ file.length then
    let id3v1Position := file.length - ID3V1_TAG_SIZE
    if file.getD id3v1Position 0 = ID3V1_IDENTIFIER_T ∧
        file.getD (id3v1Position + 1) 0 = ID3V1_IDENTIFIER_A ∧
        file.getD (id3v1Position + 2) 0 = ID3V1_IDENTIFIER_G then
      id3v1Position
    else
      file.length
  else
    file.length

/-- Embedding of `parseFrameHeader` (mp3-parser.ts lines 152-195).
`readUInt32BE` is the big-endian 4-byte word; the source's `>> k & mask`
on that word equals logical shift plus mask on the unsigned value because
every mask keeps only bits below the sign-extension region of the
JavaScript 32-bit arithmetic shift. -/
def parseFrameHeader (buffer : ByteBuf) (offset : Nat) : Except JsError Mp3Header :=
  if offset + 4 > buffer.length then
    .error .rangeError
  else
    let headerBytes :=
      (buffer.getD offset 0 <<< 24) |||
      (buffer.getD (offset + 1) 0 <<< 16) |||
      (buffer.getD (offset + 2) 0 <<< 8) |||
      buffer.getD (offset + 3) 0
    .ok
      { frameSync := (headerBytes >>> 21) &&& FRAME_SYNC_MASK
        mpegVersion := (headerBytes >>> 19) &&& 0x03
        layer := (headerBytes >>> 17) &&& 0x03
        bitrateIndex := (headerBytes >>> 12) &&& 0x0f
        sampleRateIndex := (headerBytes >>> 10) &&& 0x03
        padding := (headerBytes >>> 9) &&& 0x01 }

/-- Embedding of `isValidFrame` (mp3-parser.ts lines 202-231). -/
def isValidFrame (header : Mp3Header) : Bool :=
  if header.frameSync ≠ FRAME_SYNC_VALUE then false
  else if header.mpegVersion ≠ MPEG_VERSION_V1 then false
  else if header.layer ≠ LAYER_LAYER_III then false
  else if header.bitrateIndex = 0 ∨ header.bitrateIndex = 15 then false
  else if header.sampleRateIndex = 3 then false
  else true

/-- Embedding of `calculateFrameLength` (mp3-parser.ts lines 238-258).
`Math.floor` of the real quotient is floor division, `Int.fdiv`.  Out-of-range
table indices give `undefined` in JavaScript and are modelled with the
default `0`; the scanner only calls this after `isValidFrame`, whose
accepted indices are all in range. -/
def calculateFrameLength (header : Mp3Header) : Int :=
  let bitrate := BITRATES_V1_L3.getD header.bitrateIndex 0
  let sampleRate := SAMPLE_RATES_V1.getD header.sampleRateIndex 0
  let bitrateInBps := bitrate * (KBPS_TO_BPS : Int)
  Int.fdiv ((FRAME_LENGTH_MULTIPLIER : Int) * bitrateInBps) sampleRate +
    (header.padding : Int)

/-- The scan loop of `getMp3FrameCount` (mp3-parser.ts lines 46-71).
`fuel` is a structural-recursion bound on the number of iterations; any
fuel at least `endPosition - position` yields the loop's result (proved in
`scanFrames_fuel_congr` below), so the fuel used by `getMp3FrameCountBody`
is not an approximation.  The guard `position < endPosition - 4` is
truncated `Nat` subtraction, which matches the JavaScript integer
comparison because `position ≥ 0`.  The `toNat` on the frame length is
exact for every header this loop can reach: headers come from
`parseFrameHeader`, whose masked fields give a length of at least 96 once
`isValidFrame` accepts them (`frameLength_ge_of_parse`). -/
def scanFrames (file : ByteBuf) (endPosition : Nat) :
    Nat → Nat → Nat → Except JsError Nat
  | position, frameCount, fuel + 1 =>
    if position < endPosition - MP3_FRAME_HEADER_SIZE then
      match parseFrameHeader file position with
      | .error e => .error e
      | .ok header =>
        if isValidFrame header then
          let frameLength := (calculateFrameLength header).toNat
          let nextPosition := position + frameLength
          if nextPosition ≥ endPosition then
            .ok frameCount
          else
            scanFrames file endPosition nextPosition (frameCount + 1) fuel
        else
          scanFrames file endPosition (position + 1) frameCount fuel
    else
      .ok frameCount
  | _, frameCount, 0 => .ok frameCount

/-- The try-block body of `getMp3FrameCount` (mp3-parser.ts lines 35-73):
skip the leading ID3v2 tag, compute the end boundary, run the scan loop. -/
def getMp3FrameCountBody (file : ByteBuf) : Except JsError Nat :=
  let position := skipId3v2Tag file 0
  let endPosition := getEndPosition file
  scanFrames file endPosition position 0 (file.length + 1)

/-- Embedding of `getMp3FrameCount` (mp3-parser.ts lines 34-85) on an actual
buffer.  The catch block maps `RangeError` and `TypeError` to 0; the body on
an actual buffer can only raise the `RangeError` of `parseFrameHeader`, so
collapsing every raised error to 0 here is exact (`TypeError` needs a null
reference, modelled in `getMp3FrameCountJs`). -/
def getMp3FrameCount (file : ByteBuf) : Nat :=
  match getMp3FrameCountBody file with
  | .ok n => n
  | .error _ => 0

/-- Embedding of `getMp3FrameCount` including the null-reference case and
the full catch block: a `null`/`undefined` argument raises `TypeError` at
the first property access (`file.length` inside `skipId3v2Tag`); the catch
block returns 0 for `RangeError` and `TypeError` and re-throws anything
else. -/
def getMp3FrameCountJs (file : Option ByteBuf) : Except JsError Nat :=
  match (match file with
         | none => Except.error JsError.typeError
         | some f => getMp3FrameCountBody f) with
  | .ok n => .ok n
  | .error .rangeError => .ok 0
  | .error .typeError => .ok 0
  | .error .other => .error .other

/-- Spec-side synchsafe size (spec.md section 4, step 1): each of the 4 size
bytes contributes only its low 7 bits, the top bit of each byte being
ignored.  Written from the spec's words for comparison with the source's
`skipId3v2Tag`, which applies no mask. -/
def id3v2SizeSpec (file : ByteBuf) : Nat :=
  ((file.getD 6 0 &&& 0x7f) <<< 21) |||
  ((file.getD 7 0 &&& 0x7f) <<< 14) |||
  ((file.getD 8 0 &&& 0x7f) <<< 7) |||
  (file.getD 9 0 &&& 0x7f)

/-- A single synthetic 192-byte frame: header bytes `FF FB 54 00` decode to
fields {sync 0x7FF, version 3 (V1), layer 1 (III), bitrateIndex 5 (64 kbps),
sampleRateIndex 1 (48000 Hz), padding 0}, followed by a zero payload. -/
def frame192 : ByteBuf := [0xff, 0xfb, 0x54, 0x00] ++ List.replicate 188 0

/-- A valid 192-byte frame (same header as `frame192`) whose payload happens
to carry the bytes "TAG" at offsets 160-162. -/
def frameA : ByteBuf :=
  [0xff, 0xfb, 0x54, 0x00] ++ List.replicate 156 0 ++
    [0x54, 0x41, 0x47] ++ List.replicate 29 0

/-- A valid 96-byte frame: header bytes `FF FB 14 00` decode to bitrateIndex
1 (32 kbps) at 48000 Hz, padding 0, giving frame length 96. -/
def frameB : ByteBuf := [0xff, 0xfb, 0x14, 0x00] ++ List.replicate 92 0

/-- A well-formed 128-byte trailing ID3v1 tag block: the marker "TAG"
followed by 125 zero bytes. -/
def tagT : ByteBuf := [0x54, 0x41, 0x47] ++ List.replicate 125 0

/-- A 10-byte ID3v2 header whose size field's last byte has its top bit set
(`0x80`), which a synchsafe encoding forbids. -/
def id3TopBitBuf : ByteBuf :=
  [0x49, 0x44, 0x33, 0x03, 0x00, 0x00, 0x00, 0x00, 0x00, 0x80]

/-- A 10-byte ID3v2 header with well-formed synchsafe size 130
(size bytes `00 00 01 02`). -/
def id3SmallBuf : ByteBuf :=
  [0x49, 0x44, 0x33, 0x03, 0x00, 0x00, 0x00, 0x00, 0x01, 0x02]

/-- A 16-byte buffer starting with an ID3v2 header that declares tag size
128, far beyond the 6 bytes that actually follow the header. -/
def id3OverBuf : ByteBuf :=
  [0x49, 0x44, 0x33, 0x03, 0x00, 0x00, 0x00, 0x00, 0x01, 0x00] ++
    List.replicate 6 0

/-- Ten zero bytes: no position holds a valid header. -/
def zeros10 : ByteBuf := List.replicate 10 0

/-! Helper lemmas about the embedded definitions. -/

/-- Unfolding equation for one iteration of the scan loop. -/
lemma scanFrames_succ (file : ByteBuf) (e pos n fuel : Nat) :
    scanFrames file e pos n (fuel + 1) =
      if pos < e - MP3_FRAME_HEADER_SIZE then
        match parseFrameHeader file pos with
        | .error err => .error err
        | .ok header =>
          if isValidFrame header then
            if pos + (calculateFrameLength header).toNat ≥ e then .ok n
            else scanFrames file e (pos + (calculateFrameLength header).toNat) (n + 1) fuel
          else scanFrames file e (pos + 1) n fuel
      else .ok n := rfl

/-- When fewer than a strict header's worth of room remains, the loop guard
fails and the scan returns the accumulated count, for any fuel. -/
lemma scanFrames_stop (file : ByteBuf) (e pos n fuel : Nat) (h : e ≤ pos + MP3_FRAME_HEADER_SIZE) :
    scanFrames file e pos n fuel = .ok n := by
  cases fuel with
  | zero => rfl
  | succ fuel =>
    rw [scanFrames_succ, if_neg]
    simp only [MP3_FRAME_HEADER_SIZE] at h ⊢
    omega

/-- Characterization of `isValidFrame`. -/
lemma isValidFrame_eq_true_iff (h : Mp3Header) :
    isValidFrame h = true ↔
      h.frameSync = 0x7ff ∧ h.mpegVersion = 3 ∧ h.layer = 1 ∧
      h.bitrateIndex ≠ 0 ∧ h.bitrateIndex ≠ 15 ∧ h.sampleRateIndex ≠ 3 := by
  simp only [isValidFrame, FRAME_SYNC_VALUE, MPEG_VERSION_V1, LAYER_LAYER_III]
  by_cases h1 : h.frameSync = 0x7ff <;>
    by_cases h2 : h.mpegVersion = 3 <;>
    by_cases h3 : h.layer = 1 <;>
    by_cases h4 : h.bitrateIndex = 0 <;>
    by_cases h5 : h.bitrateIndex = 15 <;>
    by_cases h6 : h.sampleRateIndex = 3 <;>
    simp [h1, h2, h3, h4, h5, h6]

/-- Every header produced by `parseFrameHeader` has masked (in-range)
bit-fields. -/
lemma parseFrameHeader_ok_bounds {buffer : ByteBuf} {offset : Nat} {h : Mp3Header}
    (hp : parseFrameHeader buffer offset = .ok h) :
    h.frameSync ≤ 0x7ff ∧ h.mpegVersion ≤ 3 ∧ h.layer ≤ 3 ∧
    h.bitrateIndex ≤ 15 ∧ h.sampleRateIndex ≤ 3 ∧ h.padding ≤ 1 := by
  unfold parseFrameHeader at hp
  split at hp
  · exact absurd hp (by simp)
  · simp only [Except.ok.injEq] at hp
    subst hp
    refine ⟨?_, ?_, ?_, ?_, ?_, ?_⟩ <;>
      exact Nat.and_le_right

/-- Computation rule for `calculateFrameLength` on an explicit record:
the result depends only on the bitrate index, sample-rate index and
padding fields. -/
lemma calculateFrameLength_mk (sync ver lay bi si p : Nat) :
    calculateFrameLength ⟨sync, ver, lay, bi, si, p⟩ =
      Int.fdiv ((FRAME_LENGTH_MULTIPLIER : Int) *
          (BITRATES_V1_L3.getD bi 0 * (KBPS_TO_BPS : Int)))
        (SAMPLE_RATES_V1.getD si 0) + (p : Int) := rfl

/-- For a header with in-range fields that `isValidFrame` accepts, the
computed frame length is between 96 and 1441 bytes. -/
lemma frameLength_bounds {h : Mp3Header}
    (hb : h.bitrateIndex ≤ 15) (hs : h.sampleRateIndex ≤ 3) (hp : h.padding ≤ 1)
    (hv : isValidFrame h = true) :
    96 ≤ (calculateFrameLength h).toNat ∧ (calculateFrameLength h).toNat ≤ 1441 := by
  obtain ⟨sync, ver, lay, bi, si, p⟩ := h
  rw [isValidFrame_eq_true_iff] at hv
  simp only at hv hb hs hp
  obtain ⟨-, -, -, h4, h5, h6⟩ := hv
  have hb1 : 1 ≤ bi := by omega
  have hb14 : bi ≤ 14 := by omega
  have hs2 : si ≤ 2 := by omega
  interval_cases bi <;> interval_cases si <;> interval_cases p <;>
    (rw [calculateFrameLength_mk]; decide)

/-- A frame accepted by the validity check whose header was decoded by
`parseFrameHeader` advances the scan by at least 96 bytes. -/
lemma frameLength_ge_of_parse {buffer : ByteBuf} {offset : Nat} {h : Mp3Header}
    (hp : parseFrameHeader buffer offset = .ok h) (hv : isValidFrame h = true) :
    96 ≤ (calculateFrameLength h).toNat := by
  obtain ⟨-, -, -, hb, hs, hpad⟩ := parseFrameHeader_ok_bounds hp
  exact (frameLength_bounds hb hs hpad hv).1

/-- Scan step on an invalid header: the position advances by exactly one
byte. -/
lemma scanFrames_step_invalid {file : ByteBuf} {e pos : Nat} {h : Mp3Header}
    (n fuel : Nat) (hg : pos + 4 < e)
    (hp : parseFrameHeader file pos = .ok h) (hv : isValidFrame h = false) :
    scanFrames file e pos n (fuel + 1) = scanFrames file e (pos + 1) n fuel := by
  have hg' : pos < e - MP3_FRAME_HEADER_SIZE := by
    simp only [MP3_FRAME_HEADER_SIZE]; omega
  rw [scanFrames_succ, if_pos hg']
  simp only [hp, hv]
  simp

/-- Scan step on a valid header whose computed end reaches or exceeds the
boundary: the loop breaks immediately without counting the frame. -/
lemma scanFrames_step_break {file : ByteBuf} {e pos : Nat} {h : Mp3Header}
    (n fuel : Nat) (hg : pos + 4 < e)
    (hp : parseFrameHeader file pos = .ok h) (hv : isValidFrame h = true)
    (hb : pos + (calculateFrameLength h).toNat ≥ e) :
    scanFrames file e pos n (fuel + 1) = .ok n := by
  have hg' : pos < e - MP3_FRAME_HEADER_SIZE := by
    simp only [MP3_FRAME_HEADER_SIZE]; omega
  rw [scanFrames_succ, if_pos hg']
  simp only [hp, hv]
  simp [hb]

/-- Scan step on a valid header fully inside the boundary: the frame is
counted and the position jumps by the frame length. -/
lemma scanFrames_step_count {file : ByteBuf} {e pos : Nat} {h : Mp3Header}
    (n fuel : Nat) (hg : pos + 4 < e)
    (hp : parseFrameHeader file pos = .ok h) (hv : isValidFrame h = true)
    (hb : pos + (calculateFrameLength h).toNat < e) :
    scanFrames file e pos n (fuel + 1) =
      scanFrames file e (pos + (calculateFrameLength h).toNat) (n + 1) fuel := by
  have hg' : pos < e - MP3_FRAME_HEADER_SIZE := by
    simp only [MP3_FRAME_HEADER_SIZE]; omega
  rw [scanFrames_succ, if_pos hg']
  simp only [hp, hv]
  simp [Nat.not_le.mpr hb]

/-- The scan result does not depend on the fuel once the fuel covers the
remaining distance to the boundary: the loop terminates within
`endPosition - position` iterations. -/
lemma scanFrames_fuel_congr (file : ByteBuf) (e : Nat) :
    ∀ f1 f2 pos n, e ≤ pos + f1 + 4 → e ≤ pos + f2 + 4 →
      scanFrames file e pos n f1 = scanFrames file e pos n f2 := by
  intro f1
  induction f1 with
  | zero =>
    intro f2 pos n h1 h2
    rw [scanFrames_stop file e pos n 0 (by simp only [MP3_FRAME_HEADER_SIZE]; omega),
      scanFrames_stop file e pos n f2 (by simp only [MP3_FRAME_HEADER_SIZE]; omega)]
  | succ g1 ih =>
    intro f2 pos n h1 h2
    cases f2 with
    | zero =>
      rw [scanFrames_stop file e pos n (g1 + 1) (by simp only [MP3_FRAME_HEADER_SIZE]; omega),
        scanFrames_stop file e pos n 0 (by simp only [MP3_FRAME_HEADER_SIZE]; omega)]
    | succ g2 =>
      by_cases hguard : pos + 4 < e
      · cases hp : parseFrameHeader file pos with
        | error err =>
          have hg' : pos < e - MP3_FRAME_HEADER_SIZE := by
            simp only [MP3_FRAME_HEADER_SIZE]; omega
          rw [scanFrames_succ, scanFrames_succ, if_pos hg']
          simp only [hp]
          rw [if_pos hg']
        | ok h =>
          cases hv : isValidFrame h with
          | false =>
            rw [scanFrames_step_invalid n g1 hguard hp hv,
              scanFrames_step_invalid n g2 hguard hp hv]
            exact ih g2 (pos + 1) n (by omega) (by omega)
          | true =>
            by_cases hb : pos + (calculateFrameLength h).toNat ≥ e
            · rw [scanFrames_step_break n g1 hguard hp hv hb,
                scanFrames_step_break n g2 hguard hp hv hb]
            · have hL := frameLength_ge_of_parse hp hv
              rw [scanFrames_step_count n g1 hguard hp hv (by omega),
                scanFrames_step_count n g2 hguard hp hv (by omega)]
              exact ih g2 (pos + (calculateFrameLength h).toNat) (n + 1)
                (by omega) (by omega)
      · rw [scanFrames_stop file e pos n (g1 + 1) (by simp only [MP3_FRAME_HEADER_SIZE]; omega),
          scanFrames_stop file e pos n (g2 + 1) (by simp only [MP3_FRAME_HEADER_SIZE]; omega)]

/-- Header decoding succeeds exactly on offsets with at least 4 bytes
available, and the decoded header only depends on those 4 bytes: decoding
in `b ++ t` at an offset fully inside `b` equals decoding in `b`. -/
lemma parseFrameHeader_append (b t : ByteBuf) (pos : Nat) (h : pos + 4 ≤ b.length) :
    parseFrameHeader (b ++ t) pos = parseFrameHeader b pos := by
  unfold parseFrameHeader
  rw [if_neg (by simp; omega), if_neg (by omega)]
  rw [List.getD_append b t 0 pos (by omega),
    List.getD_append b t 0 (pos + 1) (by omega),
    List.getD_append b t 0 (pos + 2) (by omega),
    List.getD_append b t 0 (pos + 3) (by omega)]

/-- The scan never reads past the end boundary: scanning `b ++ t` with a
boundary inside `b` gives the same result as scanning `b`. -/
lemma scanFrames_append (b t : ByteBuf) (e : Nat) (he : e ≤ b.length) :
    ∀ fuel pos n, scanFrames (b ++ t) e pos n fuel = scanFrames b e pos n fuel := by
  intro fuel
  induction fuel with
  | zero => intro pos n; rfl
  | succ fuel ih =>
    intro pos n
    by_cases hguard : pos + 4 < e
    · have hp4 : pos + 4 ≤ b.length := by omega
      have hpeq := parseFrameHeader_append b t pos hp4
      cases hp : parseFrameHeader b pos with
      | error err =>
        have hg' : pos < e - MP3_FRAME_HEADER_SIZE := by
          simp only [MP3_FRAME_HEADER_SIZE]; omega
        rw [scanFrames_succ, scanFrames_succ, if_pos hg']
        rw [hpeq, hp]
        simp only []
        rw [if_pos hg']
      | ok h =>
        cases hv : isValidFrame h with
        | false =>
          rw [scanFrames_step_invalid n fuel hguard (hpeq.trans hp) hv,
            scanFrames_step_invalid n fuel hguard hp hv]
          exact ih (pos + 1) n
        | true =>
          by_cases hb : pos + (calculateFrameLength h).toNat ≥ e
          · rw [scanFrames_step_break n fuel hguard (hpeq.trans hp) hv hb,
              scanFrames_step_break n fuel hguard hp hv hb]
          · rw [scanFrames_step_count n fuel hguard (hpeq.trans hp) hv (by omega),
              scanFrames_step_count n fuel hguard hp hv (by omega)]
            exact ih (pos + (calculateFrameLength h).toNat) (n + 1)
    · rw [scanFrames_stop (b ++ t) e pos n (fuel + 1)
          (by simp only [MP3_FRAME_HEADER_SIZE]; omega),
        scanFrames_stop b e pos n (fuel + 1)
          (by simp only [MP3_FRAME_HEADER_SIZE]; omega)]

/-- Inside the loop guard the bounds branch of `parseFrameHeader` is
unreachable: decoding succeeds whenever at least 4 bytes are available. -/
lemma parseFrameHeader_ok_of_le (buffer : ByteBuf) (pos : Nat) (h : pos + 4 ≤ buffer.length) :
    ∃ hd, parseFrameHeader buffer pos = .ok hd := by
  unfold parseFrameHeader
  rw [if_neg (by omega)]
  exact ⟨_, rfl⟩

/-- With a boundary inside the buffer the scan loop never raises: every
header decode it performs is in bounds. -/
lemma scanFrames_no_error (file : ByteBuf) (e : Nat) (he : e ≤ file.length) :
    ∀ fuel pos n, ∃ m, scanFrames file e pos n fuel = .ok m := by
  intro fuel
  induction fuel with
  | zero => intro pos n; exact ⟨n, rfl⟩
  | succ fuel ih =>
    intro pos n
    by_cases hguard : pos + 4 < e
    · obtain ⟨hd, hp⟩ := parseFrameHeader_ok_of_le file pos (by omega)
      cases hv : isValidFrame hd with
      | false =>
        rw [scanFrames_step_invalid n fuel hguard hp hv]
        exact ih (pos + 1) n
      | true =>
        by_cases hb : pos + (calculateFrameLength hd).toNat ≥ e
        · exact ⟨n, scanFrames_step_break n fuel hguard hp hv hb⟩
        · rw [scanFrames_step_count n fuel hguard hp hv (by omega)]
          exact ih (pos + (calculateFrameLength hd).toNat) (n + 1)
    · exact ⟨n, scanFrames_stop file e pos n (fuel + 1)
        (by simp only [MP3_FRAME_HEADER_SIZE]; omega)⟩

/-- Each counted frame advances the position by at least 96 bytes, so the
number of frames the scan adds is at most the remaining distance divided
by 96. -/
lemma scanFrames_count_le (file : ByteBuf) (e : Nat) :
    ∀ fuel pos n m, scanFrames file e pos n fuel = .ok m → m ≤ n + (e - pos) / 96 := by
  intro fuel
  induction fuel with
  | zero =>
    intro pos n m hm
    simp only [scanFrames, Except.ok.injEq] at hm
    omega
  | succ fuel ih =>
    intro pos n m hm
    by_cases hguard : pos + 4 < e
    · cases hp : parseFrameHeader file pos with
      | error err =>
        have hg' : pos < e - MP3_FRAME_HEADER_SIZE := by
          simp only [MP3_FRAME_HEADER_SIZE]; omega
        rw [scanFrames_succ, if_pos hg'] at hm
        simp only [hp] at hm
        simp at hm
      | ok h =>
        cases hv : isValidFrame h with
        | false =>
          rw [scanFrames_step_invalid n fuel hguard hp hv] at hm
          have := ih (pos + 1) n m hm
          have hdiv : (e - (pos + 1)) / 96 ≤ (e - pos) / 96 :=
            Nat.div_le_div_right (by omega)
          omega
        | true =>
          by_cases hb : pos + (calculateFrameLength h).toNat ≥ e
          · rw [scanFrames_step_break n fuel hguard hp hv hb] at hm
            simp only [Except.ok.injEq] at hm
            omega
          · have hL := frameLength_ge_of_parse hp hv
            rw [scanFrames_step_count n fuel hguard hp hv (by omega)] at hm
            have := ih (pos + (calculateFrameLength h).toNat) (n + 1) m hm
            have h96 : e - (pos + (calculateFrameLength h).toNat) + 96 ≤ e - pos := by
              omega
            have hdiv : (e - (pos + (calculateFrameLength h).toNat)) / 96 + 1 ≤ (e - pos) / 96 := by
              have := Nat.div_le_div_right (c := 96) h96
              rw [Nat.add_div_right _ (by norm_num)] at this
              exact this
            omega
    · rw [scanFrames_stop file e pos n (fuel + 1)
          (by simp only [MP3_FRAME_HEADER_SIZE]; omega)] at hm
      simp only [Except.ok.injEq] at hm
      omega

/-- When the buffer starts with the "ID3" marker and holds a full 10-byte
header, the skip advances to 10 plus the size read (unmasked) from bytes
6-9. -/
lemma skipId3v2Tag_of_marker (file : ByteBuf) (hlen : 10 ≤ file.length)
    (h0 : file.getD 0 0 = 0x49) (h1 : file.getD 1 0 = 0x44)
    (h2 : file.getD 2 0 = 0x33) :
    skipId3v2Tag file 0 = 10 +
      ((file.getD 6 0 <<< 21) ||| (file.getD 7 0 <<< 14) |||
       (file.getD 8 0 <<< 7) ||| file.getD 9 0) := by
  unfold skipId3v2Tag
  rw [if_neg (by simp only [ID3V2_HEADER_SIZE]; omega)]
  rw [if_pos (by
    simp only [ID3V2_IDENTIFIER_I, ID3V2_IDENTIFIER_D, ID3V2_IDENTIFIER_THREE,
      Nat.zero_add]
    exact ⟨h0, h1, h2⟩)]
  simp only [ID3V2_HEADER_SIZE, Nat.zero_add]

/-- When the marker is absent or fewer than 10 bytes remain, the start
position is unchanged. -/
lemma skipId3v2Tag_eq_zero (file : ByteBuf)
    (h : file.length < 10 ∨ file.getD 0 0 ≠ 0x49 ∨ file.getD 1 0 ≠ 0x44 ∨
      file.getD 2 0 ≠ 0x33) :
    skipId3v2Tag file 0 = 0 := by
  unfold skipId3v2Tag
  by_cases hlen : 0 + ID3V2_HEADER_SIZE > file.length
  · rw [if_pos hlen]
  · rw [if_neg hlen]
    rw [if_neg]
    simp only [ID3V2_HEADER_SIZE] at hlen
    simp only [ID3V2_IDENTIFIER_I, ID3V2_IDENTIFIER_D, ID3V2_IDENTIFIER_THREE,
      Nat.zero_add]
    rcases h with h | h | h | h
    · omega
    · exact fun hc => h hc.1
    · exact fun hc => h hc.2.1
    · exact fun hc => h hc.2.2

/-- If-characterization of `getEndPosition`: the usable end boundary is
`length - 128` exactly when the buffer is at least 128 bytes long and the
3 bytes at `length - 128` are the "TAG" marker, and `length` otherwise. -/
lemma getEndPosition_eq (file : ByteBuf) :
    getEndPosition file =
      if 128 ≤ file.length ∧ file.getD (file.length - 128) 0 = 0x54 ∧
          file.getD (file.length - 128 + 1) 0 = 0x41 ∧
          file.getD (file.length - 128 + 2) 0 = 0x47 then
        file.length - 128
      else
        file.length := by
  unfold getEndPosition
  simp only [ID3V1_TAG_SIZE, ID3V1_IDENTIFIER_T, ID3V1_IDENTIFIER_A,
    ID3V1_IDENTIFIER_G]
  by_cases hlen : 128 ≤ file.length
  · rw [if_pos hlen]
    by_cases hm : file.getD (file.length - 128) 0 = 0x54 ∧
        file.getD (file.length - 128 + 1) 0 = 0x41 ∧
        file.getD (file.length - 128 + 2) 0 = 0x47
    · rw [if_pos hm, if_pos ⟨hlen, hm⟩]
    · rw [if_neg hm, if_neg (fun hc => hm hc.2)]
  · rw [if_neg hlen, if_neg (fun hc => hlen hc.1)]

/-- The end boundary never exceeds the buffer length. -/
lemma getEndPosition_le (file : ByteBuf) : getEndPosition file ≤ file.length := by
  rw [getEndPosition_eq]
  split
  · omega
  · omega

/-- Appending a 128-byte block whose first 3 bytes are the "TAG" marker
moves the end boundary to the end of the original buffer. -/
lemma getEndPosition_append_tag (b t : ByteBuf) (ht : t.length = 128)
    (h0 : t.getD 0 0 = 0x54) (h1 : t.getD 1 0 = 0x41) (h2 : t.getD 2 0 = 0x47) :
    getEndPosition (b ++ t) = b.length := by
  rw [getEndPosition_eq]
  have hlen : (b ++ t).length = b.length + 128 := by simp [ht]
  rw [if_pos]
  · omega
  · refine ⟨by omega, ?_, ?_, ?_⟩
    · rw [hlen, show b.length + 128 - 128 = b.length + 0 by omega,
        List.getD_append_right b t 0 _ (by omega)]
      simpa using h0
    · rw [hlen, show b.length + 128 - 128 + 1 = b.length + 1 by omega,
        List.getD_append_right b t 0 _ (by omega)]
      simpa using h1
    · rw [hlen, show b.length + 128 - 128 + 2 = b.length + 2 by omega,
        List.getD_append_right b t 0 _ (by omega)]
      simpa using h2


/-- Masking a byte value below 128 with `0x7f` is the identity: on
well-formed synchsafe size bytes the source's unmasked read agrees with the
spec's masked formula. -/
lemma land_0x7f_of_lt {b : Nat} (h : b < 128) : b &&& 0x7f = b := by
  refine Nat.eq_of_testBit_eq fun i => ?_
  rcases Nat.lt_or_ge i 7 with hi | hi
  · simp only [Nat.testBit_and]
    have : (0x7f : Nat).testBit i = true := by interval_cases i <;> decide
    simp [this]
  · have hpow : (128 : ℕ) ≤ 2 ^ i := by
      calc (128 : ℕ) = 2 ^ 7 := by norm_num
        _ ≤ 2 ^ i := Nat.pow_le_pow_right (by norm_num) hi
    have hb : b.testBit i = false := Nat.testBit_lt_two_pow (lt_of_lt_of_le h hpow)
    simp only [Nat.testBit_and, hb, Bool.false_and]

/-- The try-block body never raises on an actual buffer: it returns exactly
the count that `getMp3FrameCount` reports. -/
lemma getMp3FrameCountBody_ok (file : ByteBuf) :
    getMp3FrameCountBody file = .ok (getMp3FrameCount file) := by
  obtain ⟨m, hm⟩ := scanFrames_no_error file (getEndPosition file)
    (getEndPosition_le file) (file.length + 1) (skipId3v2Tag file 0) 0
  unfold getMp3FrameCount
  simp only [getMp3FrameCountBody] at hm ⊢
  rw [hm]

/-- If the scan start position computed by the tag skip is already within 4
bytes of the end boundary, the loop guard fails at once and the count is 0. -/
lemma getMp3FrameCount_zero_of_skip (file : ByteBuf)
    (h : getEndPosition file ≤ skipId3v2Tag file 0 + 4) :
    getMp3FrameCount file = 0 := by
  unfold getMp3FrameCount
  simp only [getMp3FrameCountBody]
  rw [scanFrames_stop file (getEndPosition file) (skipId3v2Tag file 0) 0
    (file.length + 1) (by simp only [MP3_FRAME_HEADER_SIZE]; omega)]

/-- Appending a well-formed 128-byte "TAG" block to a buffer that does not
start with the ID3v2 marker byte and does not itself end in a "TAG" marker
at `length - 128` leaves the frame count unchanged. -/
lemma getMp3FrameCount_append_tag (b t : ByteBuf) (ht : t.length = 128)
    (h0 : t.getD 0 0 = 0x54) (h1 : t.getD 1 0 = 0x41) (h2 : t.getD 2 0 = 0x47)
    (hb0 : b.getD 0 0 ≠ 0x49)
    (hend : getEndPosition b = b.length) :
    getMp3FrameCount (b ++ t) = getMp3FrameCount b := by
  have hskipb : skipId3v2Tag b 0 = 0 :=
    skipId3v2Tag_eq_zero b (Or.inr (Or.inl hb0))
  have hskipbt : skipId3v2Tag (b ++ t) 0 = 0 := by
    apply skipId3v2Tag_eq_zero
    refine Or.inr (Or.inl ?_)
    cases hbnil : b with
    | nil =>
      subst hbnil
      simp only [List.nil_append]
      rw [h0]
      norm_num
    | cons x xs =>
      rw [← hbnil, List.getD_append b t 0 0 (by rw [hbnil]; simp)]
      exact hb0
  have hbody : getMp3FrameCountBody (b ++ t) = getMp3FrameCountBody b := by
    simp only [getMp3FrameCountBody]
    rw [hskipb, hskipbt, hend, getEndPosition_append_tag b t ht h0 h1 h2,
      scanFrames_append b t b.length le_rfl]
    apply scanFrames_fuel_congr
    · simp only [List.length_append, ht]
      omega
    · omega
  unfold getMp3FrameCount
  rw [hbody]

/-! Claim theorems. -/

set_option maxRecDepth 100000 in
/-- C1: whenever the scan loop finds a valid header at the current position
whose computed next position reaches or exceeds the end boundary, it stops
immediately without counting that frame; a buffer holding exactly one
192-byte frame (sync 0x7FF, version 3, layer 1, bitrateIndex 5,
sampleRateIndex 1, padding 0) whose end equals the buffer's end counts 0
frames, while the same frame followed by 5 more non-frame bytes counts 1. -/
theorem C1_boundary_rule :
    (∀ (file : ByteBuf) (e pos n fuel : Nat) (h : Mp3Header),
      pos + 4 < e → parseFrameHeader file pos = .ok h →
      isValidFrame h = true → e ≤ pos + (calculateFrameLength h).toNat →
      scanFrames file e pos n (fuel + 1) = .ok n) ∧
    parseFrameHeader frame192 0 = .ok ⟨0x7ff, 3, 1, 5, 1, 0⟩ ∧
    getMp3FrameCount frame192 = 0 ∧
    getMp3FrameCount (frame192 ++ List.replicate 5 0) = 1 := by
  refine ⟨?_, by rfl, by decide, by decide⟩
  intro file e pos n fuel h hg hp hv hb
  exact scanFrames_step_break n fuel hg hp hv hb

set_option maxRecDepth 100000 in
/-- Witness for C1: the break rule applied to the concrete single-frame
buffer at position 0 with boundary 192. -/
theorem C1_boundary_rule_witness :
    scanFrames frame192 192 0 0 1 = .ok 0 :=
  C1_boundary_rule.1 frame192 192 0 0 0 ⟨0x7ff, 3, 1, 5, 1, 0⟩
    (by decide) (by rfl) (by decide) (by decide)

/-- C2 counterexample: on a buffer whose size byte at offset 9 is 0x80 the
code advances the start position to 138 = 10 + 0x80, whereas the claim's
masked formula gives size 0 and start position 10: the top bit is NOT
ignored by the code. -/
theorem C2_synchsafe_counterexample :
    skipId3v2Tag id3TopBitBuf 0 = 138 ∧ id3v2SizeSpec id3TopBitBuf = 0 ∧
    skipId3v2Tag id3TopBitBuf 0 ≠ 10 + id3v2SizeSpec id3TopBitBuf :=
  ⟨by decide, by decide, by decide⟩

/-- C2 (amended): for a buffer beginning with "ID3" and at least 10 bytes
long the start position advances to 10 + size where size is read from the
FULL byte values at offsets 6-9 (size = b6<<21 | b7<<14 | b8<<7 | b9, no
masking); if the marker is absent or fewer than 10 bytes remain the start
position stays 0; and whenever all four size bytes have their top bit clear
(as the synchsafe encoding guarantees) the unmasked read coincides with the
spec's masked formula. -/
theorem C2_id3v2_skip_amended (file : ByteBuf) :
    (10 ≤ file.length → file.getD 0 0 = 0x49 → file.getD 1 0 = 0x44 →
      file.getD 2 0 = 0x33 →
      skipId3v2Tag file 0 = 10 +
        ((file.getD 6 0 <<< 21) ||| (file.getD 7 0 <<< 14) |||
         (file.getD 8 0 <<< 7) ||| file.getD 9 0)) ∧
    (file.length < 10 ∨ file.getD 0 0 ≠ 0x49 ∨ file.getD 1 0 ≠ 0x44 ∨
      file.getD 2 0 ≠ 0x33 → skipId3v2Tag file 0 = 0) ∧
    (file.getD 6 0 < 128 → file.getD 7 0 < 128 → file.getD 8 0 < 128 →
      file.getD 9 0 < 128 →
      ((file.getD 6 0 <<< 21) ||| (file.getD 7 0 <<< 14) |||
       (file.getD 8 0 <<< 7) ||| file.getD 9 0) = id3v2SizeSpec file) := by
  refine ⟨fun hl h0 h1 h2 => skipId3v2Tag_of_marker file hl h0 h1 h2,
    skipId3v2Tag_eq_zero file, ?_⟩
  intro h6 h7 h8 h9
  unfold id3v2SizeSpec
  rw [land_0x7f_of_lt h6, land_0x7f_of_lt h7, land_0x7f_of_lt h8,
    land_0x7f_of_lt h9]

/-- Witness for C2 (amended): a well-formed synchsafe size 130 advances the
start position to 140. -/
theorem C2_id3v2_skip_amended_witness :
    skipId3v2Tag id3SmallBuf 0 = 140 ∧ id3v2SizeSpec id3SmallBuf = 130 := by
  have h := (C2_id3v2_skip_amended id3SmallBuf).1 (by decide) (by decide)
    (by decide) (by decide)
  exact ⟨by rw [h]; decide, by decide⟩

/-- C3: the catch block catches the TypeError that a null/absent buffer
reference raises at its first property access and silently returns 0,
contradicting the claim (and the source's own comment) that such errors
propagate to the caller; on every actual byte buffer the function indeed
never fails and returns the well-defined count. -/
theorem C3_null_buffer_silent_zero :
    getMp3FrameCountJs none = .ok 0 ∧
    (∀ file : ByteBuf,
      getMp3FrameCountJs (some file) = .ok (getMp3FrameCount file)) := by
  refine ⟨rfl, fun file => ?_⟩
  simp only [getMp3FrameCountJs, getMp3FrameCountBody_ok file]

/-- C4: for bitrate indices 1-14 and sample-rate indices 0-2 the computed
frame length is the truncated integer division
144 * bitrateTable[bitrateIndex] * 1000 / sampleRateTable[sampleRateIndex]
plus padding; in particular bitrateIndex 5 (64 kbps) at sampleRateIndex 1
(48000 Hz) gives 192 without padding and 193 with padding. -/
theorem C4_frame_length_formula :
    (∀ h : Mp3Header, 1 ≤ h.bitrateIndex → h.bitrateIndex ≤ 14 →
      h.sampleRateIndex ≤ 2 →
      calculateFrameLength h =
        Int.tdiv (144 * BITRATES_V1_L3.getD h.bitrateIndex 0 * 1000)
          (SAMPLE_RATES_V1.getD h.sampleRateIndex 0) + (h.padding : Int)) ∧
    calculateFrameLength ⟨0x7ff, 3, 1, 5, 1, 0⟩ = 192 ∧
    calculateFrameLength ⟨0x7ff, 3, 1, 5, 1, 1⟩ = 193 := by
  refine ⟨?_, by decide, by decide⟩
  intro h hb1 hb14 hs2
  obtain ⟨sync, ver, lay, bi, si, p⟩ := h
  simp only at hb1 hb14 hs2
  interval_cases bi <;> interval_cases si <;>
    (rw [calculateFrameLength_mk]; exact rfl)

/-- Witness for C4 at bitrateIndex 5, sampleRateIndex 1, padding 0. -/
theorem C4_frame_length_formula_witness :
    calculateFrameLength ⟨0x7ff, 3, 1, 5, 1, 0⟩ =
      Int.tdiv (144 * BITRATES_V1_L3.getD 5 0 * 1000)
        (SAMPLE_RATES_V1.getD 1 0) + ((0 : Nat) : Int) :=
  C4_frame_length_formula.1 ⟨0x7ff, 3, 1, 5, 1, 0⟩ (by decide) (by decide)
    (by decide)

/-- C5: a decoded header is accepted iff sync is 0x7FF, version 3, layer 1,
bitrate index neither 0 nor 15 and sample-rate index not 3; at every
position where the decoded header is rejected the scan advances by exactly
one byte. -/
theorem C5_validity_and_resync :
    (∀ h : Mp3Header, isValidFrame h = true ↔
      (h.frameSync = 0x7ff ∧ h.mpegVersion = 3 ∧ h.layer = 1 ∧
       h.bitrateIndex ≠ 0 ∧ h.bitrateIndex ≠ 15 ∧ h.sampleRateIndex ≠ 3)) ∧
    (∀ (file : ByteBuf) (e pos n fuel : Nat) (h : Mp3Header),
      pos + 4 < e → parseFrameHeader file pos = .ok h →
      isValidFrame h = false →
      scanFrames file e pos n (fuel + 1) = scanFrames file e (pos + 1) n fuel) :=
  ⟨isValidFrame_eq_true_iff,
   fun _ _ _ n fuel _ hg hp hv => scanFrames_step_invalid n fuel hg hp hv⟩

/-- Witness for C5: on ten zero bytes the all-zero header at position 0 is
rejected and the scan moves to position 1. -/
theorem C5_validity_and_resync_witness :
    scanFrames zeros10 10 0 0 4 = scanFrames zeros10 10 1 0 3 :=
  C5_validity_and_resync.2 zeros10 10 0 0 3 ⟨0, 0, 0, 0, 0, 0⟩
    (by decide) (by rfl) (by decide)

set_option maxRecDepth 1000000 in
/-- C6 counterexample: `frameA ++ frameB` is a stream of two valid frames
(192 bytes then 96 bytes, partitioning all 288 bytes), yet appending the
well-formed 128-byte "TAG" block `tagT` CHANGES the count from 0 to 1: the
stream's payload carries "TAG" at offset 288 - 128 = 160, so without the
appended tag the end boundary moves to 160 and the first frame is dropped
as truncated. -/
theorem C6_trailing_tag_counterexample :
    parseFrameHeader (frameA ++ frameB) 0 = .ok ⟨0x7ff, 3, 1, 5, 1, 0⟩ ∧
    isValidFrame ⟨0x7ff, 3, 1, 5, 1, 0⟩ = true ∧
    calculateFrameLength ⟨0x7ff, 3, 1, 5, 1, 0⟩ = 192 ∧
    parseFrameHeader (frameA ++ frameB) 192 = .ok ⟨0x7ff, 3, 1, 1, 1, 0⟩ ∧
    isValidFrame ⟨0x7ff, 3, 1, 1, 1, 0⟩ = true ∧
    calculateFrameLength ⟨0x7ff, 3, 1, 1, 1, 0⟩ = 96 ∧
    (frameA ++ frameB).length = 288 ∧
    tagT.length = 128 ∧ tagT.getD 0 0 = 0x54 ∧ tagT.getD 1 0 = 0x41 ∧
    tagT.getD 2 0 = 0x47 ∧
    getMp3FrameCount (frameA ++ frameB) = 0 ∧
    getMp3FrameCount (frameA ++ frameB ++ tagT) = 1 :=
  ⟨by rfl, by decide, by decide, by rfl, by decide, by decide, by decide,
   by decide, by decide, by decide, by decide, by decide, by decide⟩

/-- C6 (amended): appending a 128-byte block with the "TAG" marker to a
buffer that does not start with the ID3v2 marker byte and does not already
carry "TAG" at its own offset length - 128 (so its end boundary is its
length) leaves the frame count unchanged; the appended buffer's end
boundary is the original length, and in general the end boundary is
length - 128 exactly when the buffer is at least 128 bytes long and holds
the marker there, else length. -/
theorem C6_trailing_tag_amended (b t : ByteBuf) (ht : t.length = 128)
    (h0 : t.getD 0 0 = 0x54) (h1 : t.getD 1 0 = 0x41) (h2 : t.getD 2 0 = 0x47)
    (hb0 : b.getD 0 0 ≠ 0x49) (hend : getEndPosition b = b.length) :
    getMp3FrameCount (b ++ t) = getMp3FrameCount b ∧
    getEndPosition (b ++ t) = b.length ∧
    (∀ c : ByteBuf, getEndPosition c =
      if 128 ≤ c.length ∧ c.getD (c.length - 128) 0 = 0x54 ∧
          c.getD (c.length - 128 + 1) 0 = 0x41 ∧
          c.getD (c.length - 128 + 2) 0 = 0x47 then c.length - 128
      else c.length) :=
  ⟨getMp3FrameCount_append_tag b t ht h0 h1 h2 hb0 hend,
   getEndPosition_append_tag b t ht h0 h1 h2,
   getEndPosition_eq⟩

set_option maxRecDepth 1000000 in
/-- Witness for C6 (amended): appending the tag block to a clean stream of
two 192-byte frames leaves the count unchanged. -/
theorem C6_trailing_tag_amended_witness :
    getMp3FrameCount (frame192 ++ frame192 ++ tagT) =
      getMp3FrameCount (frame192 ++ frame192) :=
  (C6_trailing_tag_amended (frame192 ++ frame192) tagT (by decide) (by decide)
    (by decide) (by decide) (by decide) (by decide)).1

/-- C7: header decoding succeeds at every offset with at least 4 bytes
available, the scan loop with the computed end boundary never raises at
all, and hence the try-block body always returns the count: the RangeError
recovery path is unreachable during a top-level scan. -/
theorem C7_guard_protects_decode :
    (∀ (buffer : ByteBuf) (pos : Nat) (err : JsError),
      pos + 4 ≤ buffer.length → parseFrameHeader buffer pos ≠ .error err) ∧
    (∀ (file : ByteBuf) (pos n fuel : Nat) (err : JsError),
      scanFrames file (getEndPosition file) pos n fuel ≠ .error err) ∧
    (∀ file : ByteBuf, getMp3FrameCountBody file = .ok (getMp3FrameCount file)) := by
  refine ⟨?_, ?_, getMp3FrameCountBody_ok⟩
  · intro buffer pos err hle
    obtain ⟨hd, hp⟩ := parseFrameHeader_ok_of_le buffer pos hle
    simp [hp]
  · intro file pos n fuel err
    obtain ⟨m, hm⟩ := scanFrames_no_error file (getEndPosition file)
      (getEndPosition_le file) fuel pos n
    simp [hm]

/-- Witness for C7: decoding at offset 0 of a 10-byte buffer cannot hit the
bounds branch. -/
theorem C7_guard_protects_decode_witness :
    parseFrameHeader zeros10 0 ≠ .error .rangeError :=
  C7_guard_protects_decode.1 zeros10 0 .rangeError (by decide)

/-- C8: the scan result is independent of the fuel once the fuel covers the
distance to the boundary, so the loop terminates within `endPosition -
position` iterations; in particular any fuel of at least buffer length + 1
reproduces the value used by `getMp3FrameCount`: the run is bounded by
buffer length. -/
theorem C8_termination_fuel_independent :
    (∀ (file : ByteBuf) (e f1 f2 pos n : Nat),
      e ≤ pos + f1 + 4 → e ≤ pos + f2 + 4 →
      scanFrames file e pos n f1 = scanFrames file e pos n f2) ∧
    (∀ (file : ByteBuf) (fuel : Nat), file.length + 1 ≤ fuel →
      scanFrames file (getEndPosition file) (skipId3v2Tag file 0) 0 fuel =
        getMp3FrameCountBody file) := by
  refine ⟨fun file e f1 f2 pos n h1 h2 =>
    scanFrames_fuel_congr file e f1 f2 pos n h1 h2, ?_⟩
  intro file fuel hf
  simp only [getMp3FrameCountBody]
  apply scanFrames_fuel_congr
  · have := getEndPosition_le file
    omega
  · have := getEndPosition_le file
    omega

set_option maxRecDepth 100000 in
/-- Witness for C8: fuel 500 on the 192-byte single-frame buffer reproduces
the body's value. -/
theorem C8_termination_fuel_independent_witness :
    scanFrames frame192 (getEndPosition frame192) (skipId3v2Tag frame192 0)
      0 500 = getMp3FrameCountBody frame192 :=
  C8_termination_fuel_independent.2 frame192 500 (by decide)

/-- C9 (implicit): every header decoded by `parseFrameHeader` and accepted
by `isValidFrame` yields a frame length between 96 and 1441 bytes
inclusive, so every counted frame advances the position by at least 96
bytes and the count is at most buffer length / 96. -/
theorem C9_frame_length_bounds_and_count :
    (∀ (buffer : ByteBuf) (off : Nat) (h : Mp3Header),
      parseFrameHeader buffer off = .ok h → isValidFrame h = true →
      96 ≤ (calculateFrameLength h).toNat ∧
        (calculateFrameLength h).toNat ≤ 1441) ∧
    (∀ file : ByteBuf, getMp3FrameCount file ≤ file.length / 96) := by
  refine ⟨?_, ?_⟩
  · intro buffer off h hp hv
    obtain ⟨-, -, -, hb, hs, hpad⟩ := parseFrameHeader_ok_bounds hp
    exact frameLength_bounds hb hs hpad hv
  · intro file
    obtain ⟨m, hm⟩ := scanFrames_no_error file (getEndPosition file)
      (getEndPosition_le file) (file.length + 1) (skipId3v2Tag file 0) 0
    have hcount := scanFrames_count_le file (getEndPosition file)
      (file.length + 1) (skipId3v2Tag file 0) 0 m hm
    unfold getMp3FrameCount
    simp only [getMp3FrameCountBody]
    rw [hm]
    show m ≤ file.length / 96
    have hle := getEndPosition_le file
    have hdiv : (getEndPosition file - skipId3v2Tag file 0) / 96 ≤
        file.length / 96 := Nat.div_le_div_right (by omega)
    omega

set_option maxRecDepth 100000 in
/-- Witness for C9 on the canonical 192-byte frame header. -/
theorem C9_frame_length_bounds_and_count_witness :
    96 ≤ (calculateFrameLength ⟨0x7ff, 3, 1, 5, 1, 0⟩).toNat ∧
    (calculateFrameLength ⟨0x7ff, 3, 1, 5, 1, 0⟩).toNat ≤ 1441 :=
  C9_frame_length_bounds_and_count.1 frame192 0 ⟨0x7ff, 3, 1, 5, 1, 0⟩
    (by rfl) (by decide)

/-- C10 (implicit): for a buffer beginning with "ID3" the skip position is
10 plus the declared size, never clamped to the buffer length, and whenever
the resulting start position is at or beyond the end boundary minus 4 the
count is 0: the truncated tag body is never scanned for frames. -/
theorem C10_overlong_id3_yields_zero (file : ByteBuf) (hlen : 10 ≤ file.length)
    (h0 : file.getD 0 0 = 0x49) (h1 : file.getD 1 0 = 0x44)
    (h2 : file.getD 2 0 = 0x33) :
    skipId3v2Tag file 0 = 10 +
      ((file.getD 6 0 <<< 21) ||| (file.getD 7 0 <<< 14) |||
       (file.getD 8 0 <<< 7) ||| file.getD 9 0) ∧
    (getEndPosition file ≤ skipId3v2Tag file 0 + 4 →
      getMp3FrameCount file = 0) :=
  ⟨skipId3v2Tag_of_marker file hlen h0 h1 h2,
   getMp3FrameCount_zero_of_skip file⟩

/-- Witness for C10: a 16-byte buffer declaring tag size 128 skips to
position 138, far beyond its own end, and counts 0 frames. -/
theorem C10_overlong_id3_yields_zero_witness :
    skipId3v2Tag id3OverBuf 0 = 138 ∧ getMp3FrameCount id3OverBuf = 0 := by
  have h := C10_overlong_id3_yields_zero id3OverBuf (by decide) (by decide)
    (by decide) (by decide)
  exact ⟨by rw [h.1]; decide, h.2 (by decide)⟩
